import Mathlib

/-
Verification development for the hylaa GLPK interface
(src/hylaa/glpk_interface/hylaa_glpk.h).

Shallow embedding notes:
* C doubles are modelled as rationals; the code never performs arithmetic on
  them (it only copies values and compares against 0), so the embedding is
  exact.
* The GLPK problem object (glp_prob) is modelled as explicit first-order data:
  a list of rows (bound type, bounds, sparse coefficient list, basis status),
  a list of columns (status, objective coefficient), the cumulative simplex
  iteration counter, and the stored solution (status plus per-column primal
  values) that glp_get_status / glp_get_col_prim read.
* glp_simplex is an external capability; it is modelled as a universally
  quantified oracle that returns a return code, the new solution, the number
  of pivot iterations consumed (GLPK's cumulative iteration counter is
  non-decreasing across a solve), and new row/column basis statuses.  It does
  not change the number of rows or columns, bounds, coefficients, or the
  objective, which matches the GLPK API.
* Every `printf`+`exit(1)` path is modelled as `Except.error`: the process
  terminates, so no mutation performed before the exit is observable by any
  subsequent call; the error result therefore carries no successor state.
* glp_set_mat_row stores a replacement sparse row; GLPK documents that zero
  elements passed to it are not stored, hence the filter below.
-/

/-! GLPK constants, values from glpk.h. -/

def GLP_MIN : Nat := 1

def GLP_FR : Nat := 1

def GLP_UP : Nat := 3

def GLP_FX : Nat := 5

def GLP_BS : Nat := 1

def GLP_NF : Nat := 4

def GLP_UNDEF : Nat := 1

def GLP_INFEAS : Nat := 3

def GLP_NOFEAS : Nat := 4

def GLP_OPT : Nat := 5

def GLP_UNBND : Nat := 6

def GLP_EBADB : Nat := 1

def GLP_ESING : Nat := 2

def GLP_ENOPFS : Nat := 10

/-! Rows and columns of the GLPK problem object. -/

/-- One LP row: bound type (GLP_UP or GLP_FX here), bounds, sparse
coefficient list (1-based column index, value), and basis status. -/
structure GlpRow where
  btype : Nat
  lb : ℚ
  ub : ℚ
  coeffs : List (Nat × ℚ)
  stat : Nat
  deriving DecidableEq

/-- One LP column: basis status and objective coefficient.  All columns are
created free (GLP_FR bounds), so bounds are not stored. -/
structure GlpCol where
  stat : Nat
  obj : ℚ
  deriving DecidableEq

instance : Inhabited GlpCol := ⟨⟨GLP_NF, 0⟩⟩

instance : Inhabited GlpRow := ⟨⟨GLP_FR, 0, 0, [], GLP_BS⟩⟩

/-- In-place update of one list element (no-op when out of range), the
embedding of writing through a 0-based index. -/
def modifyIdx (l : List α) (i : Nat) (f : α → α) : List α :=
  match l, i with
  | [], _ => []
  | a :: t, 0 => f a :: t
  | a :: t, n+1 => a :: modifyIdx t n f

/-- Semantic coefficient lookup in a sparse row: the value stored at column
`j`, or 0 when no entry has that column. -/
def lookupCol (entries : List (Nat × ℚ)) (j : Nat) : ℚ :=
  match entries.find? (fun p => p.1 == j) with
  | some p => p.2
  | none => 0

/-- The coefficient of 1-based column `j` in a row. -/
def GlpRow.coeff (r : GlpRow) (j : Nat) : ℚ :=
  lookupCol r.coeffs j

/-- glp_set_mat_row at 0-based row index `i`: replaces the row's sparse
coefficient list; zero elements are not stored (GLPK behaviour). -/
def glpSetMatRow (rows : List GlpRow) (i : Nat) (entries : List (Nat × ℚ)) :
    List GlpRow :=
  modifyIdx rows i (fun r => { r with coeffs := entries.filter (fun p => ¬ p.2 = 0) })

/-! The LpData state (fields of the C++ class plus the glp_prob contents). -/

/-- The process-wide statistics counters (`struct GlobalLpData`). -/
structure GlobalLpData where
  optimizations : Int
  iterations : Int
  deriving DecidableEq

/-- State of one `LpData` instance, including the owned glp_prob.
`numInitConstraints` and `numOutputConstraints` keep the source's `-1 = unset`
sentinel.  `itCnt` is glp_get_it_cnt, `solStatus` / `solPrim` the stored
solution read by glp_get_status / glp_get_col_prim (solPrim is 0-based:
entry `i` is the primal value of 1-based column `i+1`). -/
structure LpData where
  numOutputVars : Nat
  numInitVars : Nat
  numInputs : Nat
  numInitConstraints : Int
  numOutputConstraints : Int
  inputCsrData : List ℚ
  inputCsrIndices : List Int
  inputCsrIndptr : List Int
  inputRhs : List ℚ
  rows : List GlpRow
  cols : List GlpCol
  objDir : Nat
  itCnt : Int
  solStatus : Nat
  solPrim : List ℚ
  deriving DecidableEq

/-- The LpData constructor: checks the configuration contract, then creates
`numOutputVars + numInitVars` free columns (objective coefficients start at 0
in a fresh glp_prob) and no rows. -/
def LpData.construct (numOutputVars numInitVars numInputs : Int) :
    Except String LpData :=
  if numOutputVars ≤ 0 ∨ numInitVars ≤ 0 then
    .error ("Fatal Error: numOutputVars and numInitVars must be positive.")
  else if numInputs ≠ 0 then
    .error ("Fatal Error: Inputs not supported")
  else
    .ok
      { numOutputVars := numOutputVars.toNat
        numInitVars := numInitVars.toNat
        numInputs := 0
        numInitConstraints := -1
        numOutputConstraints := -1
        inputCsrData := []
        inputCsrIndices := []
        inputCsrIndptr := []
        inputRhs := []
        rows := []
        cols := List.replicate (numOutputVars + numInitVars).toNat default
        objDir := GLP_MIN
        itCnt := 0
        solStatus := GLP_UNDEF
        solPrim := [] }

/-- resetLp: set the status of all rows to GLP_BS and all columns to GLP_NF. -/
def LpData.resetLp (s : LpData) : LpData :=
  { s with
    rows := s.rows.map (fun r => { r with stat := GLP_BS })
    cols := s.cols.map (fun c => { c with stat := GLP_NF }) }

/-- setInputConstraintsCsr: three length checks, then store the CSR triple
and the right-hand side.  Lengths are the lengths of the passed buffers. -/
def LpData.setInputConstraintsCsr (s : LpData) (data : List ℚ)
    (indices indptr : List Int) (rhs : List ℚ) : Except String LpData :=
  if data.length ≠ indices.length then
    .error ("Fatal Error: setInputConstraintsCsr expected sparse matrix with dataLen == indicesLen.")
  else if indptr.length ≠ rhs.length + 1 then
    .error ("Fatal Error: setInputConstraintsCsr matrix should have indptrLen == rhsLen + 1.")
  else if indptr.getD (indptr.length - 1) 0 ≠ (data.length : Int) then
    .error ("Fatal Error: setInputConstraintsCsr sparse matrix should have last indptr == dataLen.")
  else
    .ok { s with
      inputCsrData := data
      inputCsrIndices := indices
      inputCsrIndptr := indptr
      inputRhs := rhs }

/-- The sparse row built from one dense row of `mat` (row-major, width `w`):
only nonzero entries are kept, at 1-based columns `colOff + i + 1`. -/
def sparseRowEntries (mat : List ℚ) (w rowIdx colOff : Nat) : List (Nat × ℚ) :=
  (List.range w).filterMap fun i =>
    let d := mat.getD (rowIdx * w + i) 0
    if d = 0 then none else some (colOff + i + 1, d)

/-- A fresh `≤ ub` row whose coefficients come from dense row `rowIdx` of
`mat` at column offset `colOff` (glp_add_rows + glp_set_row_bnds GLP_UP +
glp_set_mat_row; fresh rows have status GLP_BS). -/
def ineqRow (mat : List ℚ) (w rowIdx colOff : Nat) (ub : ℚ) : GlpRow :=
  { btype := GLP_UP, lb := 0, ub := ub,
    coeffs := sparseRowEntries mat w rowIdx colOff, stat := GLP_BS }

/-- A fresh `== 0` basis-equality row with no coefficients yet
(glp_add_rows + glp_set_row_bnds GLP_FX 0 0). -/
def fxZeroRow : GlpRow :=
  { btype := GLP_FX, lb := 0, ub := 0, coeffs := [], stat := GLP_BS }

/-- setInitConstraints: one-shot installer of the init-constraint block.
The source sets `numInitConstraints = rhsLen` before its remaining checks,
but every check failure terminates the process, so the mutation is never
observable; the error result therefore carries no state. -/
def LpData.setInitConstraints (s : LpData) (mat : List ℚ) (w h : Nat)
    (rhs : List ℚ) : Except String LpData :=
  if s.numInitConstraints ≠ -1 then
    .error ("Fatal Error: setInitConstraints called twice.")
  else if h ≠ rhs.length then
    .error ("Fatal Error: setInitConstraints matrix h != rhsLen.")
  else if w ≠ s.numInitVars then
    .error ("Fatal Error: setInitConstraints matrix w should equal numInitVars")
  else if s.rows.length ≠ 0 then
    .error ("Fatal Error: setInitConstraints should be called with 0 rows in the lp")
  else
    .ok { s with
      numInitConstraints := (rhs.length : Int)
      rows := s.rows ++
        (List.range rhs.length).map (fun row => ineqRow mat w row 0 (rhs.getD row 0)) }

/-- setOutputConstraints: one-shot installer of the output-constraint block
(column offset numInitVars), followed by allocation of the numOutputVars
basis-equality rows fixed `== 0`.  `h` is accepted but unused, as in the
source. -/
def LpData.setOutputConstraints (s : LpData) (mat : List ℚ) (w h : Nat)
    (rhs : List ℚ) : Except String LpData :=
  if s.numOutputConstraints ≠ -1 then
    .error ("Fatal Error: setOutputConstraints called twice")
  else if w ≠ s.numOutputVars then
    .error ("Fatal Error: matrix width in setOutputConstraints should be equal to the number of output variables.")
  else if (s.rows.length : Int) ≠ s.numInitConstraints then
    .error ("Fatal Error: setOutputConstraints should be called right after setInitConstraints")
  else
    .ok { s with
      numOutputConstraints := (rhs.length : Int)
      rows := s.rows ++
        (List.range rhs.length).map
          (fun row => ineqRow mat w row s.numInitVars (rhs.getD row 0)) ++
        List.replicate s.numOutputVars fxZeroRow }

/-- setNoOutputConstraints: its own double-install check, then
setOutputConstraints with a null matrix, w = numOutputVars and no rows. -/
def LpData.setNoOutputConstraints (s : LpData) : Except String LpData :=
  if s.numOutputConstraints ≠ -1 then
    .error ("Fatal Error: setNoOutputConstraints called, but numOutputConstraints was already set")
  else
    s.setOutputConstraints [] s.numOutputVars 0 []

/-- The full replacement coefficient list the source passes to
glp_set_mat_row for basis row `r`: `mat[r][i]` at column `i+1` for `i < w`
and `-1` at column `w + r + 1` (the negative-identity entry). -/
def basisRowEntries (mat : List ℚ) (w r : Nat) : List (Nat × ℚ) :=
  ((List.range w).map (fun i => (i + 1, mat.getD (r * w + i) 0))) ++
    [(w + r + 1, (-1 : ℚ))]

/-- The loop of updateBasisMatrix: for `r < n`, rewrite the row at 0-based
index `base + r` (source: 1-based lpRow = numInitConstraints +
numOutputConstraints + r + 1). -/
def updateBasisRows (rows : List GlpRow) (base : Nat) (mat : List ℚ)
    (w : Nat) : Nat → List GlpRow
  | 0 => rows
  | n+1 => glpSetMatRow (updateBasisRows rows base mat w n) (base + n)
      (basisRowEntries mat w n)

/-- updateBasisMatrix: dimension and ordering checks, then rewrite the
numOutputVars basis-equality rows. -/
def LpData.updateBasisMatrix (s : LpData) (mat : List ℚ) (w h : Nat) :
    Except String LpData :=
  if w ≠ s.numInitVars ∨ h ≠ s.numOutputVars then
    .error ("Fatal Error: Matrix dimensions mismatch in updateBasisMatrix")
  else if s.numOutputConstraints = -1 then
    .error ("Fatal Error: Output Constraints should be set before updateBasisMatrix.")
  else
    .ok { s with
      rows := updateBasisRows s.rows
        (s.numInitConstraints + s.numOutputConstraints).toNat mat s.numInitVars
        s.numOutputVars }

/-! The simplex solver as an external oracle, and minimize. -/

/-- The observable outcome of one glp_simplex invocation: its return code,
the solution it stores in the problem object (status and 1-based per-column
primal values), the number of pivot iterations it consumed (GLPK's cumulative
iteration counter only grows during a solve), and the warm-start basis it
leaves behind (1-based row/column statuses).  glp_simplex never changes the
problem structure (row/column counts, bounds, coefficients, objective). -/
structure SolverOutcome where
  retCode : Nat
  status : Nat
  prim : Nat → ℚ
  pivots : Nat
  rowStat : Nat → Nat
  colStat : Nat → Nat

/-- Overwrite the statuses of a row list with `f (base + position)`
(1-based when called with base 1). -/
def applyRowStats (f : Nat → Nat) (base : Nat) : List GlpRow → List GlpRow
  | [] => []
  | r :: t => { r with stat := f base } :: applyRowStats f (base + 1) t

/-- Overwrite the statuses of a column list with `f (base + position)`,
keeping the objective coefficients. -/
def applyColStats (f : Nat → Nat) (base : Nat) : List GlpCol → List GlpCol
  | [] => []
  | c :: t => { c with stat := f base } :: applyColStats f (base + 1) t

/-- The state of the problem object after one glp_simplex invocation with
outcome `o`: new basis statuses, iteration counter advanced by the pivots
consumed, and the stored solution replaced. -/
def applySolve (s : LpData) (o : SolverOutcome) : LpData :=
  { s with
    rows := applyRowStats o.rowStat 1 s.rows
    cols := applyColStats o.colStat 1 s.cols
    itCnt := s.itCnt + (o.pivots : Int)
    solStatus := o.status
    solPrim := (List.range s.cols.length).map (fun i => o.prim (i + 1)) }

/-- The objective-coefficient loop of minimize: for `i < n`, set the
objective coefficient of 1-based column `1 + off + i` (0-based `off + i`)
to `direction[i]`. -/
def setObjCoefs (cols : List GlpCol) (off : Nat) (direction : List ℚ) :
    Nat → List GlpCol
  | 0 => cols
  | n+1 => modifyIdx (setObjCoefs cols off direction n) (off + n)
      (fun c => { c with obj := direction.getD n 0 })

/-- The state just before minimize invokes the solver: the objective has
coefficient `direction[i]` on output-variable column `1 + numInitVars + i`. -/
def LpData.setObjective (s : LpData) (direction : List ℚ) : LpData :=
  { s with cols := setObjCoefs s.cols s.numInitVars direction s.numOutputVars }

/-- The loop that copies the primal solution into the caller's result buffer:
`result[col] = glp_get_col_prim(lp, col + 1)` for `col < n`
(`n = min resLen numCols`; the write is a no-op past the end of the modelled
buffer, matching the C precondition that the buffer is large enough). -/
def writeLoop (prim : List ℚ) (result : List ℚ) : Nat → List ℚ
  | 0 => result
  | n+1 => modifyIdx (writeLoop prim result n) n (fun _ => prim.getD n 0)

/-- processSimplexResult: interpret the final glp_simplex return code and the
stored solution status.  Returns the (possibly rewritten) result buffer and
the return value (0 = feasible, 1 = unsat); every other outcome is the fatal
diagnostic path (the message-table scan in the source only selects the text
of the diagnostic). -/
def LpData.processSimplexResult (s : LpData) (simplexRes : Nat)
    (result : List ℚ) (resLen : Nat) : Except String (List ℚ × Nat) :=
  if simplexRes = GLP_ENOPFS then
    .ok (result, 1)
  else if simplexRes ≠ 0 then
    .error ("Fatal Error: glp_simplex returned nonzero status in minimize")
  else if s.solStatus = GLP_OPT then
    .ok (writeLoop s.solPrim result (min resLen s.cols.length), 0)
  else if s.solStatus = GLP_NOFEAS then
    .ok (result, 1)
  else
    .error ("Fatal Error: LP Status after solving in minimize was unexpected")

/-- Everything a (non-fatal) minimize call produces: the instance state, the
process-wide counters, the result buffer, the return value (0 = feasible,
1 = unsat), the final simplex return code, and — as instrumentation of the
embedding — the states at which glp_simplex was invoked, in order. -/
structure MinimizeOut where
  state : LpData
  glob : GlobalLpData
  result : List ℚ
  rv : Nat
  simplexRes : Nat
  solverCalls : List LpData
  deriving DecidableEq

/-- The solve-and-retry core of minimize (source lines 435-452): install the
objective, invoke glp_simplex; on a nonzero return code reset all statuses
and retry exactly once.  Returns the resulting problem state, the final
simplex return code, and the states at which the solver was invoked. -/
def minimizeCore (solver : LpData → SolverOutcome) (s : LpData)
    (direction : List ℚ) : LpData × Nat × List LpData :=
  let s0 := s.setObjective direction
  let o1 := solver s0
  let s1 := applySolve s0 o1
  if o1.retCode ≠ 0 then
    let s1r := s1.resetLp
    let o2 := solver s1r
    (applySolve s1r o2, o2.retCode, [s0, s1r])
  else (s1, o1.retCode, [s0])

/-- minimize: contract checks, then the solve/retry core, then update the
global counters by the iteration-counter delta and one optimization, and
interpret the final outcome. -/
def LpData.minimize (solver : LpData → SolverOutcome) (s : LpData)
    (g : GlobalLpData) (direction : List ℚ) (result : List ℚ) (resLen : Nat) :
    Except String MinimizeOut :=
  if s.numInitConstraints = -1 ∨ s.numOutputConstraints = -1 then
    .error ("Fatal Error: minimize called without setting init or output constraints")
  else if direction.length ≠ s.numOutputVars then
    .error ("Fatal Error: dirLen is not equal to numOutputVars in call to minimize")
  else
    let startIterations := (s.setObjective direction).itCnt
    let step := minimizeCore solver s direction
    let newIterations := step.1.itCnt - startIterations
    let g2 : GlobalLpData :=
      { optimizations := g.optimizations + 1
        iterations := g.iterations + newIterations }
    match step.1.processSimplexResult step.2.1 result resLen with
    | .error m => .error m
    | .ok (res2, rv) => .ok ⟨step.1, g2, res2, rv, step.2.1, step.2.2⟩

/-! Operation sequences, for claims quantifying over all prior calls. -/

/-- One externally visible operation on an instance. -/
inductive LpOp where
  | opSetInputCsr (data : List ℚ) (indices indptr : List Int) (rhs : List ℚ)
  | opSetInit (mat : List ℚ) (w h : Nat) (rhs : List ℚ)
  | opSetOutput (mat : List ℚ) (w h : Nat) (rhs : List ℚ)
  | opSetNoOutput
  | opUpdateBasis (mat : List ℚ) (w h : Nat)
  | opReset
  | opMinimize (solver : LpData → SolverOutcome) (direction result : List ℚ)
      (resLen : Nat)

/-- Apply one operation to the instance state and the global counters. -/
def applyOp (op : LpOp) (sg : LpData × GlobalLpData) :
    Except String (LpData × GlobalLpData) :=
  match op with
  | .opSetInputCsr data indices indptr rhs =>
      (sg.1.setInputConstraintsCsr data indices indptr rhs).map (fun s => (s, sg.2))
  | .opSetInit mat w h rhs =>
      (sg.1.setInitConstraints mat w h rhs).map (fun s => (s, sg.2))
  | .opSetOutput mat w h rhs =>
      (sg.1.setOutputConstraints mat w h rhs).map (fun s => (s, sg.2))
  | .opSetNoOutput =>
      sg.1.setNoOutputConstraints.map (fun s => (s, sg.2))
  | .opUpdateBasis mat w h =>
      (sg.1.updateBasisMatrix mat w h).map (fun s => (s, sg.2))
  | .opReset => .ok (sg.1.resetLp, sg.2)
  | .opMinimize solver direction result resLen =>
      (LpData.minimize solver sg.1 sg.2 direction result resLen).map
        (fun out => (out.state, out.glob))

/-- Run a sequence of operations. -/
def runOps (ops : List LpOp) (sg : LpData × GlobalLpData) :
    Except String (LpData × GlobalLpData) :=
  match ops with
  | [] => .ok sg
  | op :: t => (applyOp op sg).bind (runOps t)

/-! Basic lemmas about the list-update helpers. -/

theorem length_modifyIdx (l : List α) (i : Nat) (f : α → α) :
    (modifyIdx l i f).length = l.length := by
  induction l generalizing i with
  | nil => rfl
  | cons a t ih =>
    cases i with
    | zero => rfl
    | succ n => simp [modifyIdx, ih]

theorem getElem?_modifyIdx_ne (l : List α) (i : Nat) (f : α → α) (j : Nat)
    (h : j ≠ i) : (modifyIdx l i f)[j]? = l[j]? := by
  induction l generalizing i j with
  | nil => rfl
  | cons a t ih =>
    cases i with
    | zero =>
      cases j with
      | zero => exact absurd rfl h
      | succ m => simp [modifyIdx]
    | succ n =>
      cases j with
      | zero => simp [modifyIdx]
      | succ m =>
        simp only [modifyIdx, List.getElem?_cons_succ]
        exact ih n m (fun he => h (by omega))

theorem getElem?_modifyIdx_self (l : List α) (i : Nat) (f : α → α) :
    (modifyIdx l i f)[i]? = l[i]?.map f := by
  induction l generalizing i with
  | nil => rfl
  | cons a t ih =>
    cases i with
    | zero => simp [modifyIdx]
    | succ n => simp [modifyIdx, ih]

/-! Lemmas about sparse-row lookup. -/

theorem lookupCol_eq_zero_of_not_mem (e : List (Nat × ℚ)) (j : Nat)
    (h : ∀ p ∈ e, p.1 ≠ j) : lookupCol e j = 0 := by
  have : e.find? (fun p => p.1 == j) = none := by
    apply List.find?_eq_none.mpr
    intro p hp
    simpa using h p hp
  simp [lookupCol, this]

theorem lookupCol_cons (p : Nat × ℚ) (t : List (Nat × ℚ)) (j : Nat) :
    lookupCol (p :: t) j = if p.1 = j then p.2 else lookupCol t j := by
  by_cases h : p.1 = j
  · simp [lookupCol, List.find?_cons, h]
  · simp only [lookupCol, List.find?_cons]
    have : (fun q : Nat × ℚ => q.1 == j) p = false := by simpa using h
    simp [this, h]

theorem lookupCol_filter_nonzero (e : List (Nat × ℚ))
    (h : (e.map Prod.fst).Nodup) (j : Nat) :
    lookupCol (e.filter (fun p => ¬ p.2 = 0)) j = lookupCol e j := by
  induction e with
  | nil => rfl
  | cons p t ih =>
    simp only [List.map_cons, List.nodup_cons] at h
    obtain ⟨hne, hnd⟩ := h
    by_cases hz : p.2 = 0
    · have hfil : (p :: t).filter (fun p => ¬ p.2 = 0) =
          t.filter (fun p => ¬ p.2 = 0) := by
        simp [List.filter_cons, hz]
      rw [hfil, ih hnd, lookupCol_cons]
      by_cases hj : p.1 = j
      · have h0 : lookupCol t j = 0 := by
          apply lookupCol_eq_zero_of_not_mem
          intro q hq hqj
          exact hne (by
            subst hj
            rw [← hqj]
            exact List.mem_map_of_mem Prod.fst hq)
        simp [hj, h0, hz]
      · simp [hj]
    · have hfil : (p :: t).filter (fun p => ¬ p.2 = 0) =
          p :: t.filter (fun p => ¬ p.2 = 0) := by
        simp [List.filter_cons, hz]
      rw [hfil, lookupCol_cons, lookupCol_cons, ih hnd]

theorem lookupCol_append_left_skip (a b : List (Nat × ℚ)) (j : Nat)
    (h : ∀ p ∈ a, p.1 ≠ j) : lookupCol (a ++ b) j = lookupCol b j := by
  induction a with
  | nil => rfl
  | cons p t ih =>
    have hp : p.1 ≠ j := h p (by simp)
    rw [List.cons_append, lookupCol_cons]
    simp only [hp, if_false]
    exact ih (fun q hq => h q (by simp [hq]))

theorem lookupCol_append_right_skip (a b : List (Nat × ℚ)) (j : Nat)
    (h : ∀ p ∈ b, p.1 ≠ j) : lookupCol (a ++ b) j = lookupCol a j := by
  induction a with
  | nil => simpa using lookupCol_eq_zero_of_not_mem b j h
  | cons p t ih =>
    rw [List.cons_append, lookupCol_cons, lookupCol_cons, ih]

theorem lookupCol_range_map (w : Nat) (f : Nat → ℚ) (j : Nat)
    (h1 : 1 ≤ j) (h2 : j ≤ w) :
    lookupCol ((List.range w).map (fun i => (i + 1, f i))) j = f (j - 1) := by
  induction w with
  | zero => omega
  | succ n ih =>
    rw [List.range_succ, List.map_append]
    rcases Nat.lt_or_ge j (n + 1) with hj | hj
    · rw [lookupCol_append_right_skip]
      · exact ih (by omega)
      · intro p hp
        simp only [List.map_cons, List.map_nil, List.mem_singleton] at hp
        subst hp
        simp only []
        omega
    · have hjn : j = n + 1 := by omega
      rw [lookupCol_append_left_skip]
      · simp [lookupCol_cons, hjn]
      · intro p hp
        simp only [List.mem_map, List.mem_range] at hp
        obtain ⟨i, hi, rfl⟩ := hp
        simp only []
        omega

theorem lookupCol_range_map_zero (w : Nat) (f : Nat → ℚ) (j : Nat)
    (h : j = 0 ∨ w < j) :
    lookupCol ((List.range w).map (fun i => (i + 1, f i))) j = 0 := by
  apply lookupCol_eq_zero_of_not_mem
  intro p hp
  simp only [List.mem_map, List.mem_range] at hp
  obtain ⟨i, hi, rfl⟩ := hp
  simp only []
  omega

theorem nodup_basisRowEntries_fst (mat : List ℚ) (w r : Nat) :
    ((basisRowEntries mat w r).map Prod.fst).Nodup := by
  unfold basisRowEntries
  rw [List.map_append, List.map_map]
  apply List.Nodup.append
  · have : (Prod.fst ∘ fun i => (i + 1, mat.getD (r * w + i) 0)) =
        (fun i : Nat => i + 1) := by
      funext i
      rfl
    rw [this]
    exact List.Nodup.map (fun a b hab => by omega) (List.nodup_range w)
  · simp
  · intro x hx hy
    simp only [List.mem_map, List.mem_range, Function.comp] at hx
    obtain ⟨i, hi, rfl⟩ := hx
    simp only [List.map_cons, List.map_nil, List.mem_singleton] at hy
    omega

/-- The semantic content of a rewritten basis-equality row: `mat[r][j-1]` in
the init-variable columns `1 .. w`, `-1` in output column `w + r + 1`, zero
elsewhere. -/
theorem lookupCol_basisRow (mat : List ℚ) (w r j : Nat) :
    lookupCol ((basisRowEntries mat w r).filter (fun p => ¬ p.2 = 0)) j =
      if 1 ≤ j ∧ j ≤ w then mat.getD (r * w + (j - 1)) 0
      else if j = w + r + 1 then -1 else 0 := by
  rw [lookupCol_filter_nonzero _ (nodup_basisRowEntries_fst mat w r)]
  unfold basisRowEntries
  by_cases hj : 1 ≤ j ∧ j ≤ w
  · rw [lookupCol_append_right_skip]
    · rw [lookupCol_range_map w _ j hj.1 hj.2]
      simp [hj]
    · intro p hp
      simp only [List.mem_singleton] at hp
      subst hp
      simp only []
      omega
  · by_cases hj2 : j = w + r + 1
    · rw [lookupCol_append_left_skip]
      · have hle : ¬ (w + r + 1 ≤ w) := by omega
        simp [lookupCol_cons, hj2, hj, hle]
      · intro p hp
        simp only [List.mem_map, List.mem_range] at hp
        obtain ⟨i, hi, rfl⟩ := hp
        simp only []
        omega
    · rw [lookupCol_append_right_skip]
      · rw [lookupCol_range_map_zero w _ j (by omega)]
        simp [hj, hj2]
      · intro p hp
        simp only [List.mem_singleton] at hp
        subst hp
        simp only []
        omega

/-! Frame lemmas for the loop helpers. -/

theorem length_updateBasisRows (rows : List GlpRow) (base : Nat) (mat : List ℚ)
    (w n : Nat) : (updateBasisRows rows base mat w n).length = rows.length := by
  induction n with
  | zero => rfl
  | succ m ih => simp [updateBasisRows, glpSetMatRow, length_modifyIdx, ih]

theorem getElem?_updateBasisRows (rows : List GlpRow) (base : Nat)
    (mat : List ℚ) (w n j : Nat) :
    (updateBasisRows rows base mat w n)[j]? =
      if base ≤ j ∧ j < base + n then
        rows[j]?.map (fun row =>
          { row with coeffs :=
              (basisRowEntries mat w (j - base)).filter (fun p => ¬ p.2 = 0) })
      else rows[j]? := by
  induction n with
  | zero =>
    have hc : ¬ (base ≤ j ∧ j < base + 0) := by omega
    rw [if_neg hc]
    rfl
  | succ m ih =>
    unfold updateBasisRows glpSetMatRow
    by_cases hj : j = base + m
    · subst hj
      rw [getElem?_modifyIdx_self, ih]
      have h1 : ¬ (base ≤ base + m ∧ base + m < base + m) := by omega
      have h2 : base ≤ base + m ∧ base + m < base + (m + 1) := by omega
      have h3 : base + m - base = m := by omega
      rw [if_neg h1, if_pos h2, h3]
    · rw [getElem?_modifyIdx_ne _ _ _ _ hj, ih]
      by_cases hin : base ≤ j ∧ j < base + m
      · have : base ≤ j ∧ j < base + (m + 1) := by omega
        simp [hin, this]
      · have : ¬ (base ≤ j ∧ j < base + (m + 1)) := by omega
        simp [hin, this]

theorem length_applyRowStats (f : Nat → Nat) (base : Nat) (l : List GlpRow) :
    (applyRowStats f base l).length = l.length := by
  induction l generalizing base with
  | nil => rfl
  | cons r t ih => simp [applyRowStats, ih]

theorem getElem?_applyRowStats (f : Nat → Nat) (base : Nat) (l : List GlpRow)
    (j : Nat) :
    (applyRowStats f base l)[j]? = l[j]?.map (fun r => { r with stat := f (base + j) }) := by
  induction l generalizing base j with
  | nil => rfl
  | cons r t ih =>
    cases j with
    | zero => simp [applyRowStats]
    | succ m =>
      simp only [applyRowStats, List.getElem?_cons_succ]
      rw [ih (base + 1) m]
      have : base + 1 + m = base + (m + 1) := by omega
      rw [this]

theorem length_applyColStats (f : Nat → Nat) (base : Nat) (l : List GlpCol) :
    (applyColStats f base l).length = l.length := by
  induction l generalizing base with
  | nil => rfl
  | cons r t ih => simp [applyColStats, ih]

theorem getElem?_applyColStats (f : Nat → Nat) (base : Nat) (l : List GlpCol)
    (j : Nat) :
    (applyColStats f base l)[j]? = l[j]?.map (fun c => { c with stat := f (base + j) }) := by
  induction l generalizing base j with
  | nil => rfl
  | cons r t ih =>
    cases j with
    | zero => simp [applyColStats]
    | succ m =>
      simp only [applyColStats, List.getElem?_cons_succ]
      rw [ih (base + 1) m]
      have : base + 1 + m = base + (m + 1) := by omega
      rw [this]

theorem length_setObjCoefs (cols : List GlpCol) (off : Nat)
    (direction : List ℚ) (n : Nat) :
    (setObjCoefs cols off direction n).length = cols.length := by
  induction n with
  | zero => rfl
  | succ m ih => simp [setObjCoefs, length_modifyIdx, ih]

theorem getElem?_setObjCoefs_lt (cols : List GlpCol) (off : Nat)
    (direction : List ℚ) (n j : Nat) (h : j < off) :
    (setObjCoefs cols off direction n)[j]? = cols[j]? := by
  induction n with
  | zero => rfl
  | succ m ih =>
    unfold setObjCoefs
    rw [getElem?_modifyIdx_ne _ _ _ _ (by omega), ih]

theorem getElem?_setObjCoefs_ge (cols : List GlpCol) (off : Nat)
    (direction : List ℚ) (n j : Nat) (h : off + n ≤ j) :
    (setObjCoefs cols off direction n)[j]? = cols[j]? := by
  induction n with
  | zero => rfl
  | succ m ih =>
    unfold setObjCoefs
    rw [getElem?_modifyIdx_ne _ _ _ _ (by omega), ih (by omega)]

theorem getElem?_setObjCoefs_mid (cols : List GlpCol) (off : Nat)
    (direction : List ℚ) (n i : Nat) (h : i < n) :
    (setObjCoefs cols off direction n)[off + i]? =
      cols[off + i]?.map (fun c => { c with obj := direction.getD i 0 }) := by
  induction n with
  | zero => omega
  | succ m ih =>
    unfold setObjCoefs
    by_cases hi : i = m
    · subst hi
      rw [getElem?_modifyIdx_self, getElem?_setObjCoefs_ge _ _ _ _ _ (by omega)]
    · rw [getElem?_modifyIdx_ne _ _ _ _ (by omega), ih (by omega)]

theorem length_writeLoop (prim result : List ℚ) (n : Nat) :
    (writeLoop prim result n).length = result.length := by
  induction n with
  | zero => rfl
  | succ m ih => simp [writeLoop, length_modifyIdx, ih]

theorem getElem?_writeLoop_ge (prim result : List ℚ) (n j : Nat) (h : n ≤ j) :
    (writeLoop prim result n)[j]? = result[j]? := by
  induction n with
  | zero => rfl
  | succ m ih =>
    unfold writeLoop
    rw [getElem?_modifyIdx_ne _ _ _ _ (by omega), ih (by omega)]

theorem getElem?_writeLoop_lt (prim result : List ℚ) (n j : Nat) (h : j < n) :
    (writeLoop prim result n)[j]? = result[j]?.map (fun _ => prim.getD j 0) := by
  induction n with
  | zero => omega
  | succ m ih =>
    unfold writeLoop
    by_cases hj : j = m
    · subst hj
      rw [getElem?_modifyIdx_self, getElem?_writeLoop_ge _ _ _ _ (by omega)]
    · rw [getElem?_modifyIdx_ne _ _ _ _ hj, ih (by omega)]

/-! Inversion lemmas for the installers and minimize. -/

theorem construct_ok_inv {o i n : Int} {s : LpData}
    (h : LpData.construct o i n = .ok s) :
    0 < o ∧ 0 < i ∧ n = 0 ∧
    s = { numOutputVars := o.toNat, numInitVars := i.toNat, numInputs := 0,
          numInitConstraints := -1, numOutputConstraints := -1,
          inputCsrData := [], inputCsrIndices := [], inputCsrIndptr := [],
          inputRhs := [], rows := [],
          cols := List.replicate (o + i).toNat default,
          objDir := GLP_MIN, itCnt := 0, solStatus := GLP_UNDEF,
          solPrim := [] } := by
  unfold LpData.construct at h
  split at h
  · exact absurd h (by simp)
  · split at h
    · exact absurd h (by simp)
    · rename_i h1 h2
      refine ⟨by omega, by omega, by omega, ?_⟩
      exact (Except.ok.injEq _ _ ▸ h).symm

theorem setInitConstraints_ok_inv {s : LpData} {mat : List ℚ} {w h : Nat}
    {rhs : List ℚ} {s' : LpData}
    (hok : s.setInitConstraints mat w h rhs = .ok s') :
    s.numInitConstraints = -1 ∧ h = rhs.length ∧ w = s.numInitVars ∧
    s.rows.length = 0 ∧
    s' = { s with
      numInitConstraints := (rhs.length : Int)
      rows := s.rows ++
        (List.range rhs.length).map
          (fun row => ineqRow mat w row 0 (rhs.getD row 0)) } := by
  unfold LpData.setInitConstraints at hok
  split at hok
  · exact absurd hok (by simp)
  · split at hok
    · exact absurd hok (by simp)
    · split at hok
      · exact absurd hok (by simp)
      · split at hok
        · exact absurd hok (by simp)
        · rename_i h1 h2 h3 h4
          refine ⟨by omega, by omega, by omega, by omega, ?_⟩
          exact (Except.ok.injEq _ _ ▸ hok).symm

theorem setOutputConstraints_ok_inv {s : LpData} {mat : List ℚ} {w h : Nat}
    {rhs : List ℚ} {s' : LpData}
    (hok : s.setOutputConstraints mat w h rhs = .ok s') :
    s.numOutputConstraints = -1 ∧ w = s.numOutputVars ∧
    (s.rows.length : Int) = s.numInitConstraints ∧
    s' = { s with
      numOutputConstraints := (rhs.length : Int)
      rows := s.rows ++
        (List.range rhs.length).map
          (fun row => ineqRow mat w row s.numInitVars (rhs.getD row 0)) ++
        List.replicate s.numOutputVars fxZeroRow } := by
  unfold LpData.setOutputConstraints at hok
  split at hok
  · exact absurd hok (by simp)
  · split at hok
    · exact absurd hok (by simp)
    · split at hok
      · exact absurd hok (by simp)
      · rename_i h1 h2 h3
        refine ⟨by omega, by omega, by omega, ?_⟩
        exact (Except.ok.injEq _ _ ▸ hok).symm

theorem setNoOutputConstraints_ok_inv {s s' : LpData}
    (hok : s.setNoOutputConstraints = .ok s') :
    s.setOutputConstraints [] s.numOutputVars 0 [] = .ok s' := by
  unfold LpData.setNoOutputConstraints at hok
  split at hok
  · exact absurd hok (by simp)
  · exact hok

theorem updateBasisMatrix_ok_inv {s : LpData} {mat : List ℚ} {w h : Nat}
    {s' : LpData} (hok : s.updateBasisMatrix mat w h = .ok s') :
    w = s.numInitVars ∧ h = s.numOutputVars ∧ s.numOutputConstraints ≠ -1 ∧
    s' = { s with
      rows := updateBasisRows s.rows
        (s.numInitConstraints + s.numOutputConstraints).toNat mat s.numInitVars
        s.numOutputVars } := by
  unfold LpData.updateBasisMatrix at hok
  split at hok
  · exact absurd hok (by simp)
  · split at hok
    · exact absurd hok (by simp)
    · rename_i h1 h2
      push_neg at h1
      refine ⟨h1.1, h1.2, h2, ?_⟩
      exact (Except.ok.injEq _ _ ▸ hok).symm

theorem setInputConstraintsCsr_ok_inv {s : LpData} {data : List ℚ}
    {indices indptr : List Int} {rhs : List ℚ} {s' : LpData}
    (hok : s.setInputConstraintsCsr data indices indptr rhs = .ok s') :
    s' = { s with
      inputCsrData := data
      inputCsrIndices := indices
      inputCsrIndptr := indptr
      inputRhs := rhs } := by
  unfold LpData.setInputConstraintsCsr at hok
  split at hok
  · exact absurd hok (by simp)
  · split at hok
    · exact absurd hok (by simp)
    · split at hok
      · exact absurd hok (by simp)
      · exact (Except.ok.injEq _ _ ▸ hok).symm

theorem minimize_ok_inv {solver : LpData → SolverOutcome} {s : LpData}
    {g : GlobalLpData} {direction result : List ℚ} {resLen : Nat}
    {out : MinimizeOut}
    (hok : LpData.minimize solver s g direction result resLen = .ok out) :
    s.numInitConstraints ≠ -1 ∧ s.numOutputConstraints ≠ -1 ∧
    direction.length = s.numOutputVars ∧
    out.state = (minimizeCore solver s direction).1 ∧
    out.simplexRes = (minimizeCore solver s direction).2.1 ∧
    out.solverCalls = (minimizeCore solver s direction).2.2 ∧
    out.glob = { optimizations := g.optimizations + 1
                 iterations := g.iterations +
                   ((minimizeCore solver s direction).1.itCnt -
                     (s.setObjective direction).itCnt) } ∧
    (minimizeCore solver s direction).1.processSimplexResult
        (minimizeCore solver s direction).2.1 result resLen =
      .ok (out.result, out.rv) := by
  unfold LpData.minimize at hok
  split at hok
  · exact absurd hok (by simp)
  · split at hok
    · exact absurd hok (by simp)
    · rename_i h1 h2
      push_neg at h1
      simp only [] at hok
      split at hok
      · exact absurd hok (by simp)
      · rename_i res2rv heq
        have := (Except.ok.injEq _ _ ▸ hok).symm
        subst this
        refine ⟨h1.1, h1.2, by omega, rfl, rfl, rfl, rfl, ?_⟩
        rw [heq]

/-! Concrete fixtures used by the witnesses. -/

/-- Whether a call hit a fatal (process-terminating) path. -/
def isErr (e : Except String α) : Bool :=
  match e with
  | .error _ => true
  | .ok _ => false

instance [DecidableEq ε] [DecidableEq α] : DecidableEq (Except ε α) :=
  fun x y =>
    match x, y with
    | .ok a, .ok b =>
        if h : a = b then isTrue (by rw [h]) else
          isFalse (fun hc => h (Except.ok.inj hc))
    | .error a, .error b =>
        if h : a = b then isTrue (by rw [h]) else
          isFalse (fun hc => h (Except.error.inj hc))
    | .ok _, .error _ => isFalse (fun hc => Except.noConfusion hc)
    | .error _, .ok _ => isFalse (fun hc => Except.noConfusion hc)

/-- The instance produced by the constructor with numOutputVars = 1,
numInitVars = 1, numInputs = 0. -/
def lp0 : LpData :=
  { numOutputVars := 1, numInitVars := 1, numInputs := 0,
    numInitConstraints := -1, numOutputConstraints := -1,
    inputCsrData := [], inputCsrIndices := [], inputCsrIndptr := [],
    inputRhs := [], rows := [], cols := [default, default],
    objDir := GLP_MIN, itCnt := 0, solStatus := GLP_UNDEF, solPrim := [] }

/-- lp0 after installing an empty init-constraint block. -/
def lp1 : LpData := { lp0 with numInitConstraints := 0 }

/-- lp1 after installing an empty output-constraint block (which also
allocates the one basis-equality row). -/
def lp2 : LpData := { lp1 with numOutputConstraints := 0, rows := [fxZeroRow] }

theorem lp_fixture_steps :
    LpData.construct 1 1 0 = .ok lp0 ∧
    lp0.setInitConstraints [] 1 0 [] = .ok lp1 ∧
    lp1.setOutputConstraints [] 1 0 [] = .ok lp2 := by
  refine ⟨?_, ?_, ?_⟩ <;> decide

/-! C4. -/

/-- C4: calling the output-constraint installer (setOutputConstraints or
setNoOutputConstraints) before setInitConstraints, or calling
updateBasisMatrix before the output-constraint installer has completed,
always fails with a configuration error.  The fatal abort is modelled as an
error result carrying no successor state, so no mutation is visible to
subsequent calls: the instance state (numInitConstraints,
numOutputConstraints, and the LP rows included) that a subsequent call sees
is the unchanged pre-call state. -/
theorem c4_order_violations :
    (∀ (s : LpData) (mat : List ℚ) (w h : Nat) (rhs : List ℚ),
      s.numInitConstraints = -1 →
        isErr (s.setOutputConstraints mat w h rhs) = true) ∧
    (∀ s : LpData, s.numInitConstraints = -1 →
        isErr s.setNoOutputConstraints = true) ∧
    (∀ (s : LpData) (mat : List ℚ) (w h : Nat),
      s.numOutputConstraints = -1 →
        isErr (s.updateBasisMatrix mat w h) = true) := by
  have hout : ∀ (s : LpData) (mat : List ℚ) (w h : Nat) (rhs : List ℚ),
      s.numInitConstraints = -1 →
        isErr (s.setOutputConstraints mat w h rhs) = true := by
    intro s mat w h rhs hinit
    unfold LpData.setOutputConstraints
    split
    · rfl
    · split
      · rfl
      · split
        · rfl
        · rename_i h1 h2 h3
          rw [hinit] at h3
          omega
  refine ⟨hout, ?_, ?_⟩
  · intro s hinit
    unfold LpData.setNoOutputConstraints
    split
    · rfl
    · exact hout s [] s.numOutputVars 0 [] hinit
  · intro s mat w h hnoc
    unfold LpData.updateBasisMatrix
    split
    · rfl
    · rfl

/-- Witness for C4 at concrete inputs: both installers fail on a
freshly-constructed instance, and updateBasisMatrix fails right after the
init block is installed but before the output block is. -/
theorem c4_order_violations_witness :
    isErr (lp0.setOutputConstraints [] 1 0 []) = true ∧
    isErr lp0.setNoOutputConstraints = true ∧
    isErr (lp1.updateBasisMatrix [2] 1 1) = true :=
  ⟨c4_order_violations.1 lp0 [] 1 0 [] (by decide),
   c4_order_violations.2.1 lp0 (by decide),
   c4_order_violations.2.2 lp1 [2] 1 1 (by decide)⟩

/-! C7. -/

/-- C7: a second call to setInitConstraints, or a second call to the
output-constraint installer (setOutputConstraints or setNoOutputConstraints
in any combination), always fails with a configuration error on the second
call, regardless of the arguments passed. -/
theorem c7_no_double_install :
    (∀ (s : LpData) (mat : List ℚ) (w h : Nat) (rhs : List ℚ) (s' : LpData)
        (mat2 : List ℚ) (w2 h2 : Nat) (rhs2 : List ℚ),
      s.setInitConstraints mat w h rhs = .ok s' →
        isErr (s'.setInitConstraints mat2 w2 h2 rhs2) = true) ∧
    (∀ (s : LpData) (mat : List ℚ) (w h : Nat) (rhs : List ℚ) (s' : LpData),
      (s.setOutputConstraints mat w h rhs = .ok s' ∨
        s.setNoOutputConstraints = .ok s') →
      ∀ (mat2 : List ℚ) (w2 h2 : Nat) (rhs2 : List ℚ),
        isErr (s'.setOutputConstraints mat2 w2 h2 rhs2) = true ∧
        isErr s'.setNoOutputConstraints = true) := by
  constructor
  · intro s mat w h rhs s' mat2 w2 h2 rhs2 hok
    obtain ⟨-, -, -, -, hs'⟩ := setInitConstraints_ok_inv hok
    subst hs'
    unfold LpData.setInitConstraints
    split
    · rfl
    · rename_i hcon
      simp only [] at hcon
      omega
  · intro s mat w h rhs s' hfst mat2 w2 h2 rhs2
    have hnoc : s'.numOutputConstraints ≠ -1 := by
      rcases hfst with hok | hok
      · obtain ⟨-, -, -, hs'⟩ := setOutputConstraints_ok_inv hok
        subst hs'
        simp only []
        omega
      · obtain ⟨-, -, -, hs'⟩ :=
          setOutputConstraints_ok_inv (setNoOutputConstraints_ok_inv hok)
        subst hs'
        simp only []
        omega
    constructor
    · unfold LpData.setOutputConstraints
      split
      · rfl
      · rename_i hcon
        exact absurd hnoc hcon
    · unfold LpData.setNoOutputConstraints
      split
      · rfl
      · rename_i hcon
        exact absurd hnoc hcon

/-- Witness for C7 at concrete inputs: the second install always fails, in
every order combination. -/
theorem c7_no_double_install_witness :
    isErr (lp1.setInitConstraints [] 1 0 []) = true ∧
    isErr (lp2.setOutputConstraints [] 1 0 []) = true ∧
    isErr lp2.setNoOutputConstraints = true :=
  ⟨c7_no_double_install.1 lp0 [] 1 0 [] lp1 [] 1 0 [] (by decide),
   (c7_no_double_install.2 lp1 [] 1 0 [] lp2 (.inl (by decide)) [] 1 0 []).1,
   (c7_no_double_install.2 lp1 [] 1 0 [] lp2 (.inl (by decide)) [] 1 0 []).2⟩

/-! C9. -/

/-- C9: setInputConstraintsCsr accepts a CSR triple (data, indices, indptr)
plus rhs exactly when len(data) == len(indices),
len(indptr) == len(rhs) + 1, and indptr[last] == len(data); violating any of
these yields a fatal configuration error, and a call satisfying them
succeeds and stores the matrix. -/
theorem c9_setInputConstraintsCsr (s : LpData) (data : List ℚ)
    (indices indptr : List Int) (rhs : List ℚ) :
    (data.length = indices.length ∧ indptr.length = rhs.length + 1 ∧
        indptr.getD (indptr.length - 1) 0 = (data.length : Int) →
      s.setInputConstraintsCsr data indices indptr rhs =
        .ok { s with inputCsrData := data, inputCsrIndices := indices,
                     inputCsrIndptr := indptr, inputRhs := rhs }) ∧
    (¬ (data.length = indices.length ∧ indptr.length = rhs.length + 1 ∧
        indptr.getD (indptr.length - 1) 0 = (data.length : Int)) →
      isErr (s.setInputConstraintsCsr data indices indptr rhs) = true) := by
  unfold LpData.setInputConstraintsCsr
  constructor
  · intro ⟨h1, h2, h3⟩
    rw [if_neg (by omega), if_neg (by omega),
      if_neg (show ¬ (indptr.getD (indptr.length - 1) 0 ≠ (data.length : Int))
        from fun hc => hc h3)]
  · intro hbad
    split
    · rfl
    · split
      · rfl
      · split
        · rfl
        · rename_i h1 h2 h3
          exact absurd ⟨by omega, by omega, Decidable.of_not_not h3⟩ hbad

/-- Witness for C9 at concrete inputs: a well-formed CSR triple is stored, a
triple with a malformed row-pointer array is rejected. -/
theorem c9_setInputConstraintsCsr_witness :
    lp0.setInputConstraintsCsr [1, 2] [0, 1] [0, 2] [8] =
      .ok { lp0 with inputCsrData := [1, 2], inputCsrIndices := [0, 1],
                     inputCsrIndptr := [0, 2], inputRhs := [8] } ∧
    isErr (lp0.setInputConstraintsCsr [1, 2] [0, 1] [0, 1] [8]) = true :=
  ⟨(c9_setInputConstraintsCsr lp0 [1, 2] [0, 1] [0, 2] [8]).1 (by decide),
   (c9_setInputConstraintsCsr lp0 [1, 2] [0, 1] [0, 1] [8]).2 (by decide)⟩

/-! C2. -/

theorem applySolve_rows_length (s : LpData) (o : SolverOutcome) :
    (applySolve s o).rows.length = s.rows.length := by
  simp [applySolve, length_applyRowStats]

theorem resetLp_rows_length (s : LpData) :
    s.resetLp.rows.length = s.rows.length := by
  simp [LpData.resetLp]

theorem setObjective_rows (s : LpData) (direction : List ℚ) :
    (s.setObjective direction).rows = s.rows := rfl

theorem minimizeCore_rows_length (solver : LpData → SolverOutcome)
    (s : LpData) (direction : List ℚ) :
    (minimizeCore solver s direction).1.rows.length = s.rows.length := by
  by_cases hc : (solver (s.setObjective direction)).retCode ≠ 0
  · simp only [minimizeCore, if_pos hc]
    rw [applySolve_rows_length, resetLp_rows_length, applySolve_rows_length,
      setObjective_rows]
  · simp only [minimizeCore, if_neg hc]
    rw [applySolve_rows_length, setObjective_rows]

/-- C2: immediately after setInitConstraints (initRows rows) followed by
setOutputConstraints or setNoOutputConstraints (outputRows rows), the LP's
total row count equals initRows + outputRows + numOutputVars; no subsequent
operation (updateBasisMatrix, minimize, setInputConstraintsCsr, resetLp)
ever changes the row count; and updateBasisMatrix changes only the numeric
coefficients of the numOutputVars basis rows (rows before the basis block
and rows past it are untouched, and every row keeps its bound type, bounds
and status). -/
theorem c2_row_layout :
    (∀ (s s1 s2 : LpData) (mat1 : List ℚ) (w1 h1 : Nat) (rhs1 : List ℚ)
        (mat2 : List ℚ) (w2 h2 : Nat) (rhs2 : List ℚ),
      s.setInitConstraints mat1 w1 h1 rhs1 = .ok s1 →
      (s1.setOutputConstraints mat2 w2 h2 rhs2 = .ok s2 ∨
        (rhs2 = [] ∧ s1.setNoOutputConstraints = .ok s2)) →
      s2.rows.length = rhs1.length + rhs2.length + s2.numOutputVars) ∧
    (∀ (s : LpData) (mat : List ℚ) (w h : Nat) (s' : LpData),
      s.updateBasisMatrix mat w h = .ok s' →
      s'.rows.length = s.rows.length ∧
      (∀ j, j < (s.numInitConstraints + s.numOutputConstraints).toNat →
        s'.rows[j]? = s.rows[j]?) ∧
      (∀ j, (s.numInitConstraints + s.numOutputConstraints).toNat +
          s.numOutputVars ≤ j → s'.rows[j]? = s.rows[j]?) ∧
      (∀ (j : Nat) (r r' : GlpRow), s.rows[j]? = some r →
        s'.rows[j]? = some r' →
        r'.btype = r.btype ∧ r'.lb = r.lb ∧ r'.ub = r.ub ∧
        r'.stat = r.stat)) ∧
    (∀ (solver : LpData → SolverOutcome) (s : LpData) (g : GlobalLpData)
        (direction result : List ℚ) (resLen : Nat) (out : MinimizeOut),
      LpData.minimize solver s g direction result resLen = .ok out →
      out.state.rows.length = s.rows.length) ∧
    (∀ (s : LpData) (data : List ℚ) (indices indptr : List Int)
        (rhs : List ℚ) (s' : LpData),
      s.setInputConstraintsCsr data indices indptr rhs = .ok s' →
      s'.rows.length = s.rows.length) ∧
    (∀ s : LpData, s.resetLp.rows.length = s.rows.length) := by
  refine ⟨?_, ?_, ?_, ?_, resetLp_rows_length⟩
  · intro s s1 s2 mat1 w1 h1 rhs1 mat2 w2 h2 rhs2 hinit hout
    obtain ⟨-, -, -, hlen0, hs1⟩ := setInitConstraints_ok_inv hinit
    have hs1len : s1.rows.length = rhs1.length := by
      subst hs1
      simp [hlen0]
    have hs1out : s1.numOutputVars = s.numOutputVars := by
      subst hs1
      rfl
    rcases hout with hok | ⟨hrhs2, hok⟩
    · obtain ⟨-, -, -, hs2⟩ := setOutputConstraints_ok_inv hok
      subst hs2
      simp [hs1len]
      omega
    · obtain ⟨-, -, -, hs2⟩ :=
        setOutputConstraints_ok_inv (setNoOutputConstraints_ok_inv hok)
      subst hs2
      subst hrhs2
      simp [hs1len]
  · intro s mat w h s' hok
    obtain ⟨hw, hh, -, hs'⟩ := updateBasisMatrix_ok_inv hok
    subst hs'
    set base := (s.numInitConstraints + s.numOutputConstraints).toNat with hbase
    refine ⟨by simp [length_updateBasisRows], ?_, ?_, ?_⟩
    · intro j hj
      simp only []
      rw [getElem?_updateBasisRows, if_neg (by omega)]
    · intro j hj
      simp only []
      rw [getElem?_updateBasisRows, if_neg (by omega)]
    · intro j r r' hr hr'
      simp only [] at hr'
      rw [getElem?_updateBasisRows] at hr'
      by_cases hin : base ≤ j ∧ j < base + s.numOutputVars
      · rw [if_pos hin, hr] at hr'
        simp only [Option.map] at hr'
        have := (Option.some.injEq _ _ ▸ hr')
        rw [← this]
        exact ⟨rfl, rfl, rfl, rfl⟩
      · rw [if_neg hin, hr] at hr'
        have := (Option.some.injEq _ _ ▸ hr')
        rw [← this]
        exact ⟨rfl, rfl, rfl, rfl⟩
  · intro solver s g direction result resLen out hok
    obtain ⟨-, -, -, hstate, -⟩ := minimize_ok_inv hok
    rw [hstate, minimizeCore_rows_length]
  · intro s data indices indptr rhs s' hok
    have hs' := setInputConstraintsCsr_ok_inv hok
    subst hs'
    rfl

/-- Witness for C2 at concrete inputs: the 1+1-variable instance with empty
init and output blocks has 0 + 0 + 1 rows after installation, and
updateBasisMatrix and resetLp keep that row count. -/
theorem c2_row_layout_witness :
    lp2.rows.length = 0 + 0 + lp2.numOutputVars ∧
    ({ lp2 with
        rows := [{ fxZeroRow with coeffs := [(1, 3), (2, -1)] }] } :
      LpData).rows.length = lp2.rows.length ∧
    lp2.resetLp.rows.length = lp2.rows.length :=
  ⟨c2_row_layout.1 lp0 lp1 lp2 [] 1 0 [] [] 1 0 [] (by decide)
      (.inl (by decide)),
   (c2_row_layout.2.1 lp2 [3] 1 1
      { lp2 with rows := [{ fxZeroRow with coeffs := [(1, 3), (2, -1)] }] }
      (by decide)).1,
   c2_row_layout.2.2.2.2 lp2⟩

/-! C5. -/

theorem updateBasisRows_idem (rows : List GlpRow) (base : Nat) (mat : List ℚ)
    (w n : Nat) :
    updateBasisRows (updateBasisRows rows base mat w n) base mat w n =
      updateBasisRows rows base mat w n := by
  apply List.ext_getElem?
  intro j
  simp only [getElem?_updateBasisRows]
  by_cases hin : base ≤ j ∧ j < base + n
  · simp only [if_pos hin]
    cases rows[j]? <;> rfl
  · simp only [if_neg hin]

/-- C5: on an instance with both blocks installed (both row counters set,
hence non-negative) and a matrix of shape numOutputVars x numInitVars,
updateBasisMatrix rewrites, for each output row r, the basis-equality row at
offset initRows + outputRows + r so that its coefficient in init-variable
column i is matrix[r][i] for all i < numInitVars, its coefficient in the
output-variable column for row r is -1, and every other coefficient of that
row is zero; and calling updateBasisMatrix twice with the same matrix leaves
the LP in the same state as calling it once. -/
theorem c5_updateBasisMatrix (s : LpData) (mat : List ℚ) (w h : Nat)
    (s' : LpData) (hic : 0 ≤ s.numInitConstraints)
    (hoc : 0 ≤ s.numOutputConstraints)
    (hok : s.updateBasisMatrix mat w h = .ok s') :
    (∀ r, r < s.numOutputVars → ∀ row : GlpRow,
      s'.rows[s.numInitConstraints.toNat + s.numOutputConstraints.toNat + r]? =
        some row →
      (∀ i, i < s.numInitVars →
        row.coeff (i + 1) = mat.getD (r * s.numInitVars + i) 0) ∧
      row.coeff (s.numInitVars + r + 1) = -1 ∧
      (∀ j, ¬ (1 ≤ j ∧ j ≤ s.numInitVars) → j ≠ s.numInitVars + r + 1 →
        row.coeff j = 0)) ∧
    s'.updateBasisMatrix mat w h = .ok s' := by
  obtain ⟨hw, hh, hnoc, hs'⟩ := updateBasisMatrix_ok_inv hok
  have hbase : (s.numInitConstraints + s.numOutputConstraints).toNat =
      s.numInitConstraints.toNat + s.numOutputConstraints.toNat := by omega
  constructor
  · intro r hr row hrow
    rw [hs'] at hrow
    simp only [] at hrow
    rw [getElem?_updateBasisRows, hbase,
      if_pos (by omega)] at hrow
    have hsub : s.numInitConstraints.toNat + s.numOutputConstraints.toNat + r -
        (s.numInitConstraints.toNat + s.numOutputConstraints.toNat) = r := by
      omega
    rw [hsub] at hrow
    rcases hget : s.rows[s.numInitConstraints.toNat +
        s.numOutputConstraints.toNat + r]? with - | oldRow
    · rw [hget] at hrow
      exact absurd hrow (by simp)
    · rw [hget] at hrow
      simp only [Option.map] at hrow
      have hrow' := Option.some.inj hrow
      have hcoe : row.coeffs =
          (basisRowEntries mat s.numInitVars r).filter (fun p => ¬ p.2 = 0) := by
        rw [← hrow']
      refine ⟨?_, ?_, ?_⟩
      · intro i hi
        rw [GlpRow.coeff, hcoe, lookupCol_basisRow,
          if_pos (by omega)]
        congr 1
      · rw [GlpRow.coeff, hcoe, lookupCol_basisRow,
          if_neg (by omega), if_pos (by omega)]
      · intro j hj1 hj2
        rw [GlpRow.coeff, hcoe, lookupCol_basisRow,
          if_neg hj1, if_neg (by omega)]
  · rw [hs']
    unfold LpData.updateBasisMatrix
    rw [if_neg (by simp only []; omega), if_neg (by simp only []; exact hnoc)]
    simp only []
    rw [updateBasisRows_idem]

/-- Witness for C5 at concrete inputs: on the 1+1-variable instance the
rewritten basis row has coefficient 3 in the init column, -1 in the output
column, 0 elsewhere, and a second identical update is a no-op. -/
theorem c5_updateBasisMatrix_witness :
    ({ fxZeroRow with coeffs := [(1, 3), (2, -1)] } : GlpRow).coeff 1 = 3 ∧
    ({ fxZeroRow with coeffs := [(1, 3), (2, -1)] } : GlpRow).coeff 2 = -1 ∧
    ({ fxZeroRow with coeffs := [(1, 3), (2, -1)] } : GlpRow).coeff 5 = 0 ∧
    ({ lp2 with
        rows := [{ fxZeroRow with coeffs := [(1, 3), (2, -1)] }] } :
      LpData).updateBasisMatrix [3] 1 1 =
      .ok { lp2 with
        rows := [{ fxZeroRow with coeffs := [(1, 3), (2, -1)] }] } := by
  have h := c5_updateBasisMatrix lp2 [3] 1 1
      { lp2 with rows := [{ fxZeroRow with coeffs := [(1, 3), (2, -1)] }] }
      (by decide) (by decide) (by decide)
  exact ⟨(h.1 0 (by decide) _ (by decide)).1 0 (by decide),
    (h.1 0 (by decide) _ (by decide)).2.1,
    (h.1 0 (by decide) _ (by decide)).2.2 5 (by decide) (by decide),
    h.2⟩

/-! C6. -/

/-- The objective coefficient stored at 0-based column index `j`
(glp_get_obj_coef of 1-based column `j+1`), when the column exists. -/
def colObjAt (s : LpData) (j : Nat) : Option ℚ :=
  s.cols[j]?.map GlpCol.obj

/-- The structural invariant used for objective claims: the column count is
numInitVars + numOutputVars and every init-variable column has objective
coefficient zero. -/
def InvObj (s : LpData) : Prop :=
  s.cols.length = s.numInitVars + s.numOutputVars ∧
  ∀ j, j < s.numInitVars → colObjAt s j = some 0

theorem applySolve_numInitVars (s : LpData) (o : SolverOutcome) :
    (applySolve s o).numInitVars = s.numInitVars := rfl

theorem applySolve_cols_obj (s : LpData) (o : SolverOutcome) (j : Nat) :
    colObjAt (applySolve s o) j = colObjAt s j := by
  simp only [colObjAt, applySolve, getElem?_applyColStats]
  cases s.cols[j]? <;> rfl

theorem resetLp_cols_obj (s : LpData) (j : Nat) :
    colObjAt s.resetLp j = colObjAt s j := by
  simp only [colObjAt, LpData.resetLp, List.getElem?_map]
  cases s.cols[j]? <;> rfl

theorem setObjective_cols_obj_lt (s : LpData) (direction : List ℚ) (j : Nat)
    (hj : j < s.numInitVars) :
    colObjAt (s.setObjective direction) j = colObjAt s j := by
  simp only [colObjAt, LpData.setObjective]
  rw [getElem?_setObjCoefs_lt _ _ _ _ _ hj]

theorem applySolve_cols_length (s : LpData) (o : SolverOutcome) :
    (applySolve s o).cols.length = s.cols.length := by
  simp [applySolve, length_applyColStats]

theorem resetLp_cols_length (s : LpData) :
    s.resetLp.cols.length = s.cols.length := by
  simp [LpData.resetLp]

theorem setObjective_cols_length (s : LpData) (direction : List ℚ) :
    (s.setObjective direction).cols.length = s.cols.length := by
  simp [LpData.setObjective, length_setObjCoefs]

theorem minimizeCore_fields (solver : LpData → SolverOutcome) (s : LpData)
    (direction : List ℚ) :
    (minimizeCore solver s direction).1.numInitVars = s.numInitVars ∧
    (minimizeCore solver s direction).1.numOutputVars = s.numOutputVars ∧
    (minimizeCore solver s direction).1.cols.length = s.cols.length ∧
    ∀ j, j < s.numInitVars →
      colObjAt (minimizeCore solver s direction).1 j = colObjAt s j := by
  by_cases hc : (solver (s.setObjective direction)).retCode ≠ 0
  · simp only [minimizeCore, if_pos hc]
    refine ⟨rfl, rfl, ?_, ?_⟩
    · rw [applySolve_cols_length, resetLp_cols_length, applySolve_cols_length,
        setObjective_cols_length]
    · intro j hj
      rw [applySolve_cols_obj, resetLp_cols_obj, applySolve_cols_obj,
        setObjective_cols_obj_lt _ _ _ hj]
  · simp only [minimizeCore, if_neg hc]
    refine ⟨rfl, rfl, ?_, ?_⟩
    · rw [applySolve_cols_length, setObjective_cols_length]
    · intro j hj
      rw [applySolve_cols_obj, setObjective_cols_obj_lt _ _ _ hj]

theorem minimizeCore_calls_head (solver : LpData → SolverOutcome)
    (s : LpData) (direction : List ℚ) :
    (minimizeCore solver s direction).2.2.head? =
      some (s.setObjective direction) := by
  by_cases hc : (solver (s.setObjective direction)).retCode ≠ 0
  · simp only [minimizeCore, if_pos hc]
    rfl
  · simp only [minimizeCore, if_neg hc]
    rfl

theorem invObj_construct {o i n : Int} {s0 : LpData}
    (h : LpData.construct o i n = .ok s0) : InvObj s0 := by
  obtain ⟨ho, hi, -, hs0⟩ := construct_ok_inv h
  subst hs0
  constructor
  · simp only [List.length_replicate]
    omega
  · intro j hj
    simp only [colObjAt]
    rw [List.getElem?_replicate]
    rw [if_pos (by simp only [] at hj ⊢; omega)]
    rfl

theorem invObj_applyOp {op : LpOp} {s s' : LpData} {g g' : GlobalLpData}
    (h : applyOp op (s, g) = .ok (s', g')) (hinv : InvObj s) : InvObj s' := by
  obtain ⟨hlen, hzero⟩ := hinv
  cases op with
  | opSetInputCsr data indices indptr rhs =>
    simp only [applyOp] at h
    cases hcall : s.setInputConstraintsCsr data indices indptr rhs with
    | error m => rw [hcall] at h; exact absurd h (by simp [Except.map])
    | ok s2 =>
      rw [hcall] at h
      simp only [Except.map] at h
      have h2 := Prod.mk.injEq _ _ _ _ ▸ (Except.ok.inj h)
      have hs2 : s2 = s' := h2.1
      subst hs2
      have hform := setInputConstraintsCsr_ok_inv hcall
      subst hform
      exact ⟨hlen, hzero⟩
  | opSetInit mat w hh rhs =>
    simp only [applyOp] at h
    cases hcall : s.setInitConstraints mat w hh rhs with
    | error m => rw [hcall] at h; exact absurd h (by simp [Except.map])
    | ok s2 =>
      rw [hcall] at h
      simp only [Except.map] at h
      have h2 := Prod.mk.injEq _ _ _ _ ▸ (Except.ok.inj h)
      have hs2 : s2 = s' := h2.1
      subst hs2
      obtain ⟨-, -, -, -, hform⟩ := setInitConstraints_ok_inv hcall
      subst hform
      exact ⟨hlen, hzero⟩
  | opSetOutput mat w hh rhs =>
    simp only [applyOp] at h
    cases hcall : s.setOutputConstraints mat w hh rhs with
    | error m => rw [hcall] at h; exact absurd h (by simp [Except.map])
    | ok s2 =>
      rw [hcall] at h
      simp only [Except.map] at h
      have h2 := Prod.mk.injEq _ _ _ _ ▸ (Except.ok.inj h)
      have hs2 : s2 = s' := h2.1
      subst hs2
      obtain ⟨-, -, -, hform⟩ := setOutputConstraints_ok_inv hcall
      subst hform
      exact ⟨hlen, hzero⟩
  | opSetNoOutput =>
    simp only [applyOp] at h
    cases hcall : s.setNoOutputConstraints with
    | error m => rw [hcall] at h; exact absurd h (by simp [Except.map])
    | ok s2 =>
      rw [hcall] at h
      simp only [Except.map] at h
      have h2 := Prod.mk.injEq _ _ _ _ ▸ (Except.ok.inj h)
      have hs2 : s2 = s' := h2.1
      subst hs2
      obtain ⟨-, -, -, hform⟩ :=
        setOutputConstraints_ok_inv (setNoOutputConstraints_ok_inv hcall)
      subst hform
      exact ⟨hlen, hzero⟩
  | opUpdateBasis mat w hh =>
    simp only [applyOp] at h
    cases hcall : s.updateBasisMatrix mat w hh with
    | error m => rw [hcall] at h; exact absurd h (by simp [Except.map])
    | ok s2 =>
      rw [hcall] at h
      simp only [Except.map] at h
      have h2 := Prod.mk.injEq _ _ _ _ ▸ (Except.ok.inj h)
      have hs2 : s2 = s' := h2.1
      subst hs2
      obtain ⟨-, -, -, hform⟩ := updateBasisMatrix_ok_inv hcall
      subst hform
      exact ⟨hlen, hzero⟩
  | opReset =>
    simp only [applyOp] at h
    have h2 := Prod.mk.injEq _ _ _ _ ▸ (Except.ok.inj h)
    have hs2 : s.resetLp = s' := h2.1
    subst hs2
    refine ⟨by rw [resetLp_cols_length]; exact hlen, ?_⟩
    intro j hj
    rw [resetLp_cols_obj]
    exact hzero j hj
  | opMinimize solver direction result resLen =>
    simp only [applyOp] at h
    cases hcall : LpData.minimize solver s g direction result resLen with
    | error m => rw [hcall] at h; exact absurd h (by simp [Except.map])
    | ok out =>
      rw [hcall] at h
      simp only [Except.map] at h
      have h2 := Prod.mk.injEq _ _ _ _ ▸ (Except.ok.inj h)
      have hs2 : out.state = s' := h2.1
      obtain ⟨-, -, -, hstate, -⟩ := minimize_ok_inv hcall
      obtain ⟨hni, hno, hcl, hobj⟩ := minimizeCore_fields solver s direction
      rw [← hs2, hstate]
      refine ⟨by rw [hcl, hni, hno]; exact hlen, ?_⟩
      intro j hj
      rw [hni] at hj
      rw [hobj j hj]
      exact hzero j hj

theorem invObj_runOps {ops : List LpOp} {s0 s : LpData}
    {g0 g : GlobalLpData} (hrun : runOps ops (s0, g0) = .ok (s, g))
    (hinv : InvObj s0) : InvObj s := by
  induction ops generalizing s0 g0 with
  | nil =>
    simp only [runOps] at hrun
    have h2 := Prod.mk.injEq _ _ _ _ ▸ (Except.ok.inj hrun)
    rw [← h2.1]
    exact hinv
  | cons op t ih =>
    simp only [runOps] at hrun
    cases hstep : applyOp op (s0, g0) with
    | error m => rw [hstep] at hrun; exact absurd hrun (by simp [Except.bind])
    | ok sg1 =>
      rw [hstep] at hrun
      simp only [Except.bind] at hrun
      have hstep2 : applyOp op (s0, g0) = .ok (sg1.1, sg1.2) := by
        rw [hstep]
      exact ih hrun (invObj_applyOp hstep2 hinv)

/-- C6: for every minimize(direction) call with direction of length
numOutputVars, on any state reached by any sequence of prior operations from
a constructed instance, the objective installed before solving (the state at
which the solver is first invoked) has coefficient direction[k] on the
output-variable column 1 + numInitVars + k (0-based index numInitVars + k)
for every k < numOutputVars, and coefficient 0 on every init-variable column
1 .. numInitVars (0-based indices 0 .. numInitVars - 1). -/
theorem c6_objective (o i n : Int) (s0 : LpData) (g0 g : GlobalLpData)
    (ops : List LpOp) (s : LpData) (direction : List ℚ)
    (hcons : LpData.construct o i n = .ok s0)
    (hrun : runOps ops (s0, g0) = .ok (s, g))
    (hdir : direction.length = s.numOutputVars) :
    (∀ k, k < s.numOutputVars →
      colObjAt (s.setObjective direction) (s.numInitVars + k) =
        some (direction.getD k 0)) ∧
    (∀ j, j < s.numInitVars →
      colObjAt (s.setObjective direction) j = some 0) ∧
    (∀ (solver : LpData → SolverOutcome) (result : List ℚ) (resLen : Nat)
        (out : MinimizeOut),
      LpData.minimize solver s g direction result resLen = .ok out →
      out.solverCalls.head? = some (s.setObjective direction)) := by
  obtain ⟨hlen, hzero⟩ := invObj_runOps hrun (invObj_construct hcons)
  refine ⟨?_, ?_, ?_⟩
  · intro k hk
    have hidx : s.numInitVars + k < s.cols.length := by omega
    simp only [colObjAt, LpData.setObjective]
    rw [getElem?_setObjCoefs_mid _ _ _ _ _ hk,
      List.getElem?_eq_getElem hidx]
    rfl
  · intro j hj
    rw [setObjective_cols_obj_lt _ _ _ hj]
    exact hzero j hj
  · intro solver result resLen out hok
    obtain ⟨-, -, -, -, -, hcalls, -⟩ := minimize_ok_inv hok
    rw [hcalls, minimizeCore_calls_head]

/-- A trivial concrete solver outcome used by the C6 witness. -/
def c6solver : LpData → SolverOutcome :=
  fun _ => ⟨0, GLP_NOFEAS, (fun _ => 0), 0, (fun _ => GLP_BS), (fun _ => GLP_NF)⟩

/-- The concrete minimize output used by the C6 witness. -/
def c6out : MinimizeOut :=
  match LpData.minimize c6solver lp2 ⟨0, 0⟩ [7] [] 0 with
  | .ok o => o
  | .error _ => ⟨lp2, ⟨0, 0⟩, [], 0, 0, []⟩

/-- Witness for C6 at concrete inputs: after install on the 1+1-variable
instance, the installed objective is 7 on the output column, 0 on the init
column, and the first solver invocation happens at exactly that state. -/
theorem c6_objective_witness :
    colObjAt (lp2.setObjective [7]) (lp2.numInitVars + 0) =
      some ([(7 : ℚ)].getD 0 0) ∧
    colObjAt (lp2.setObjective [7]) 0 = some 0 ∧
    c6out.solverCalls.head? = some (lp2.setObjective [7]) :=
  have h := c6_objective 1 1 0 lp0 ⟨0, 0⟩ ⟨0, 0⟩
    [LpOp.opSetInit [] 1 0 [], LpOp.opSetOutput [] 1 0 []] lp2 [7]
    (by decide) (by decide) (by decide)
  ⟨h.1 0 (by decide), h.2.1 0 (by decide),
   h.2.2 c6solver [] 0 c6out (by rfl)⟩

/-! C3. -/

/-- The state at which the retried (second) solver invocation happens: the
post-first-solve state with every row status reset to basic and every column
status reset to free-nonbasic. -/
def retryState (solver : LpData → SolverOutcome) (s : LpData)
    (direction : List ℚ) : LpData :=
  (applySolve (s.setObjective direction)
    (solver (s.setObjective direction))).resetLp

theorem minimize_eq (solver : LpData → SolverOutcome) (s : LpData)
    (g : GlobalLpData) (direction result : List ℚ) (resLen : Nat)
    (hic : s.numInitConstraints ≠ -1) (hoc : s.numOutputConstraints ≠ -1)
    (hdir : direction.length = s.numOutputVars) :
    LpData.minimize solver s g direction result resLen =
      match (minimizeCore solver s direction).1.processSimplexResult
          (minimizeCore solver s direction).2.1 result resLen with
      | .error m => .error m
      | .ok (res2, rv) =>
          .ok ⟨(minimizeCore solver s direction).1,
            { optimizations := g.optimizations + 1
              iterations := g.iterations +
                ((minimizeCore solver s direction).1.itCnt -
                  (s.setObjective direction).itCnt) },
            res2, rv, (minimizeCore solver s direction).2.1,
            (minimizeCore solver s direction).2.2⟩ := by
  unfold LpData.minimize
  rw [if_neg (by push_neg; exact ⟨hic, hoc⟩), if_neg (by omega)]

theorem processSimplexResult_enopfs (s : LpData) (result : List ℚ)
    (resLen : Nat) :
    s.processSimplexResult GLP_ENOPFS result resLen = .ok (result, 1) := by
  unfold LpData.processSimplexResult
  rw [if_pos rfl]

theorem processSimplexResult_hard_error (s : LpData) (res : Nat)
    (result : List ℚ) (resLen : Nat) (h0 : res ≠ 0) (hen : res ≠ GLP_ENOPFS) :
    isErr (s.processSimplexResult res result resLen) = true := by
  unfold LpData.processSimplexResult
  rw [if_neg hen, if_pos h0]
  rfl

theorem minimizeCore_retry (solver : LpData → SolverOutcome) (s : LpData)
    (direction : List ℚ)
    (hfail : (solver (s.setObjective direction)).retCode ≠ 0) :
    minimizeCore solver s direction =
      (applySolve (retryState solver s direction)
          (solver (retryState solver s direction)),
        (solver (retryState solver s direction)).retCode,
        [s.setObjective direction, retryState solver s direction]) := by
  simp only [minimizeCore, if_pos hfail]
  rfl

/-- C3: in every minimize call that reaches the solver, if the first solver
invocation reports a failure (a hard basis error has a nonzero return code),
the instance resets every row status to basic and every column status to
free-nonbasic, and retries exactly once: the solver is invoked exactly at
the objective-installed state and then at the fully reset state, never a
third time.  A second nonzero return is fatal (an error, never a normal
answer), except a no-primal-feasible return (GLP_ENOPFS, presolve) which is
reported as infeasible (rv = 1) rather than as an error. -/
theorem c3_retry_once (solver : LpData → SolverOutcome) (s : LpData)
    (g : GlobalLpData) (direction result : List ℚ) (resLen : Nat)
    (hic : s.numInitConstraints ≠ -1) (hoc : s.numOutputConstraints ≠ -1)
    (hdir : direction.length = s.numOutputVars)
    (hfail : (solver (s.setObjective direction)).retCode ≠ 0) :
    (minimizeCore solver s direction).2.2 =
      [s.setObjective direction, retryState solver s direction] ∧
    (∀ row ∈ (retryState solver s direction).rows, row.stat = GLP_BS) ∧
    (∀ c ∈ (retryState solver s direction).cols, c.stat = GLP_NF) ∧
    ((solver (retryState solver s direction)).retCode = GLP_ENOPFS →
      ∃ out : MinimizeOut,
        LpData.minimize solver s g direction result resLen = .ok out ∧
        out.rv = 1 ∧ out.result = result ∧
        out.solverCalls =
          [s.setObjective direction, retryState solver s direction]) ∧
    ((solver (retryState solver s direction)).retCode ≠ 0 →
      (solver (retryState solver s direction)).retCode ≠ GLP_ENOPFS →
      isErr (LpData.minimize solver s g direction result resLen) = true) := by
  have hcore := minimizeCore_retry solver s direction hfail
  refine ⟨by rw [hcore], ?_, ?_, ?_, ?_⟩
  · intro row hrow
    simp only [retryState, LpData.resetLp, List.mem_map] at hrow
    obtain ⟨r, -, hr⟩ := hrow
    rw [← hr]
  · intro c hc
    simp only [retryState, LpData.resetLp, List.mem_map] at hc
    obtain ⟨r, -, hr⟩ := hc
    rw [← hr]
  · intro hen
    refine ⟨⟨(minimizeCore solver s direction).1,
      { optimizations := g.optimizations + 1
        iterations := g.iterations +
          ((minimizeCore solver s direction).1.itCnt -
            (s.setObjective direction).itCnt) },
      result, 1, (minimizeCore solver s direction).2.1,
      (minimizeCore solver s direction).2.2⟩, ?_, rfl, rfl, by rw [hcore]⟩
    rw [minimize_eq solver s g direction result resLen hic hoc hdir]
    have h21 : (minimizeCore solver s direction).2.1 = GLP_ENOPFS := by
      rw [hcore]
      exact hen
    rw [h21, processSimplexResult_enopfs]
  · intro h0 hen
    rw [minimize_eq solver s g direction result resLen hic hoc hdir]
    have h21 : (minimizeCore solver s direction).2.1 =
        (solver (retryState solver s direction)).retCode := by
      rw [hcore]
    have herr := processSimplexResult_hard_error
      (minimizeCore solver s direction).1
      (minimizeCore solver s direction).2.1 result resLen
      (by rw [h21]; exact h0) (by rw [h21]; exact hen)
    cases hp : (minimizeCore solver s direction).1.processSimplexResult
        (minimizeCore solver s direction).2.1 result resLen with
    | error m => rfl
    | ok pr =>
      rw [hp] at herr
      exact absurd herr (by simp [isErr])

/-- A concrete solver for the C3 witness: the first invocation (iteration
counter still 0) fails with GLP_EBADB after consuming one pivot, the
retried invocation reports no-primal-feasible. -/
def c3solver : LpData → SolverOutcome :=
  fun t =>
    if t.itCnt = 0 then
      ⟨GLP_EBADB, GLP_UNDEF, (fun _ => 0), 1, (fun _ => GLP_BS),
        (fun _ => GLP_BS)⟩
    else
      ⟨GLP_ENOPFS, GLP_UNDEF, (fun _ => 0), 0, (fun _ => GLP_BS),
        (fun _ => GLP_NF)⟩

/-- A concrete solver for the C3 witness that fails with GLP_EBADB on every
invocation. -/
def c3fatalSolver : LpData → SolverOutcome :=
  fun _ =>
    ⟨GLP_EBADB, GLP_UNDEF, (fun _ => 0), 1, (fun _ => GLP_BS),
      (fun _ => GLP_BS)⟩

/-- Witness for C3 at concrete inputs: after a first-solve failure the
solver is invoked exactly twice, the second time at the reset state; a
persistent hard failure makes minimize fatal. -/
theorem c3_retry_once_witness :
    (minimizeCore c3solver lp2 [7]).2.2 =
      [lp2.setObjective [7], retryState c3solver lp2 [7]] ∧
    isErr (LpData.minimize c3fatalSolver lp2 ⟨0, 0⟩ [7] [] 0) = true :=
  ⟨(c3_retry_once c3solver lp2 ⟨0, 0⟩ [7] [] 0 (by decide) (by decide)
      (by decide) (by decide)).1,
   (c3_retry_once c3fatalSolver lp2 ⟨0, 0⟩ [7] [] 0 (by decide) (by decide)
      (by decide) (by decide)).2.2.2.2 (by decide) (by decide)⟩

/-! C8. -/

theorem applySolve_itCnt (s : LpData) (o : SolverOutcome) :
    (applySolve s o).itCnt = s.itCnt + (o.pivots : Int) := rfl

theorem resetLp_itCnt (s : LpData) : s.resetLp.itCnt = s.itCnt := rfl

theorem setObjective_itCnt (s : LpData) (direction : List ℚ) :
    (s.setObjective direction).itCnt = s.itCnt := rfl

theorem minimizeCore_itCnt_ge (solver : LpData → SolverOutcome) (s : LpData)
    (direction : List ℚ) :
    s.itCnt ≤ (minimizeCore solver s direction).1.itCnt := by
  by_cases hc : (solver (s.setObjective direction)).retCode ≠ 0
  · simp only [minimizeCore, if_pos hc]
    rw [applySolve_itCnt, resetLp_itCnt, applySolve_itCnt, setObjective_itCnt]
    omega
  · simp only [minimizeCore, if_neg hc]
    rw [applySolve_itCnt, setObjective_itCnt]
    omega

/-- C8: every minimize call that returns (feasible or infeasible, retried or
not) increments the process-wide optimization counter by exactly 1 and
increases the process-wide iteration counter by the delta of the solver's
cumulative pivot-iteration counter across the call, which is non-negative,
so the iteration counter is non-decreasing. -/
theorem c8_statistics (solver : LpData → SolverOutcome) (s : LpData)
    (g : GlobalLpData) (direction result : List ℚ) (resLen : Nat)
    (out : MinimizeOut)
    (hok : LpData.minimize solver s g direction result resLen = .ok out) :
    out.glob.optimizations = g.optimizations + 1 ∧
    out.glob.iterations = g.iterations + (out.state.itCnt - s.itCnt) ∧
    g.iterations ≤ out.glob.iterations := by
  obtain ⟨-, -, -, hstate, -, -, hglob, -⟩ := minimize_ok_inv hok
  have hobj : (s.setObjective direction).itCnt = s.itCnt := rfl
  have hge := minimizeCore_itCnt_ge solver s direction
  refine ⟨by rw [hglob], ?_, ?_⟩
  · rw [hglob, hstate, hobj]
  · rw [hglob]
    show g.iterations ≤ g.iterations +
      ((minimizeCore solver s direction).1.itCnt -
        (s.setObjective direction).itCnt)
    rw [hobj]
    exact le_add_of_nonneg_right (sub_nonneg.mpr hge)

/-- A concrete solver for the C8 witness: succeeds immediately as
infeasible, consuming 5 pivots. -/
def c8solver : LpData → SolverOutcome :=
  fun _ =>
    ⟨0, GLP_NOFEAS, (fun _ => 0), 5, (fun _ => GLP_BS), (fun _ => GLP_NF)⟩

/-- The concrete minimize output used by the C8 witness. -/
def c8out : MinimizeOut :=
  match LpData.minimize c8solver lp2 ⟨0, 0⟩ [7] [] 0 with
  | .ok o => o
  | .error _ => ⟨lp2, ⟨0, 0⟩, [], 0, 0, []⟩

/-- Witness for C8 at concrete inputs: one infeasible call from zeroed
counters gives optimizations = 1 and iterations = the pivots consumed. -/
theorem c8_statistics_witness :
    c8out.glob.optimizations = (0 : Int) + 1 ∧
    c8out.glob.iterations = (0 : Int) + (c8out.state.itCnt - lp2.itCnt) ∧
    (0 : Int) ≤ c8out.glob.iterations :=
  c8_statistics c8solver lp2 ⟨0, 0⟩ [7] [] 0 c8out (by rfl)

/-! C10 and C1. -/

theorem processSimplexResult_ok_inv {s : LpData} {res : Nat}
    {result : List ℚ} {resLen : Nat} {res2 : List ℚ} {rv : Nat}
    (h : s.processSimplexResult res result resLen = .ok (res2, rv)) :
    (res = GLP_ENOPFS ∧ res2 = result ∧ rv = 1) ∨
    (res = 0 ∧ s.solStatus = GLP_OPT ∧
      res2 = writeLoop s.solPrim result (min resLen s.cols.length) ∧
      rv = 0) ∨
    (res = 0 ∧ s.solStatus = GLP_NOFEAS ∧ s.solStatus ≠ GLP_OPT ∧
      res2 = result ∧ rv = 1) := by
  unfold LpData.processSimplexResult at h
  split at h
  · rename_i hen
    have hp := Prod.mk.injEq _ _ _ _ ▸ (Except.ok.inj h)
    exact .inl ⟨hen, hp.1.symm, hp.2.symm⟩
  · split at h
    · exact absurd h (by simp)
    · split at h
      · rename_i hen hnz hopt
        have hp := Prod.mk.injEq _ _ _ _ ▸ (Except.ok.inj h)
        exact .inr (.inl ⟨by omega, hopt, hp.1.symm, hp.2.symm⟩)
      · split at h
        · rename_i hen hnz hopt hnof
          have hp := Prod.mk.injEq _ _ _ _ ▸ (Except.ok.inj h)
          exact .inr (.inr ⟨by omega, hnof, hopt, hp.1.symm, hp.2.symm⟩)
        · exact absurd h (by simp)

/-- C10: for every minimize call that returns, the result buffer is written
only when the final solver outcome is a clean return (code 0) with status
OPTIMAL; when the outcome is infeasible (rv = 1) every entry is unchanged;
and entries at index min(resLen, numColumns) or beyond — in particular at
resLen or beyond — are never written in any case.  The buffer length also
never changes. -/
theorem c10_result_frame (solver : LpData → SolverOutcome) (s : LpData)
    (g : GlobalLpData) (direction result : List ℚ) (resLen : Nat)
    (out : MinimizeOut)
    (hok : LpData.minimize solver s g direction result resLen = .ok out) :
    out.result.length = result.length ∧
    (¬ (out.simplexRes = 0 ∧ out.state.solStatus = GLP_OPT) →
      out.result = result) ∧
    (out.rv = 1 → out.result = result) ∧
    (∀ j, min resLen out.state.cols.length ≤ j →
      out.result[j]? = result[j]?) := by
  obtain ⟨-, -, -, hstate, hres, -, -, hproc⟩ := minimize_ok_inv hok
  rcases processSimplexResult_ok_inv hproc with
    ⟨hen, hr, hrv⟩ | ⟨hz, hopt, hr, hrv⟩ | ⟨hz, hnof, hnopt, hr, hrv⟩
  · refine ⟨by rw [hr], fun _ => hr, fun _ => hr, fun j _ => by rw [hr]⟩
  · refine ⟨?_, ?_, ?_, ?_⟩
    · rw [hr, length_writeLoop]
    · intro hcon
      exact absurd ⟨by rw [hres, hz], by rw [hstate]; exact hopt⟩ hcon
    · intro h1
      rw [hrv] at h1
      omega
    · intro j hj
      rw [hstate] at hj
      rw [hr, getElem?_writeLoop_ge _ _ _ _ hj]
  · refine ⟨by rw [hr], fun _ => hr, fun _ => hr, fun j _ => by rw [hr]⟩

/-- A concrete solver for the C10 witness: a clean infeasible outcome. -/
def c10solver : LpData → SolverOutcome :=
  fun _ =>
    ⟨0, GLP_NOFEAS, (fun c => (c : ℚ)), 2, (fun _ => GLP_BS),
      (fun _ => GLP_NF)⟩

/-- The concrete minimize output used by the C10 witness. -/
def c10out : MinimizeOut :=
  match LpData.minimize c10solver lp2 ⟨0, 0⟩ [7] [9, 9] 2 with
  | .ok o => o
  | .error _ => ⟨lp2, ⟨0, 0⟩, [], 0, 0, []⟩

/-- Witness for C10 at concrete inputs: an infeasible call leaves the result
buffer untouched. -/
theorem c10_result_frame_witness :
    c10out.result.length = [(9 : ℚ), 9].length ∧
    (c10out.rv = 1 → c10out.result = [(9 : ℚ), 9]) ∧
    c10out.result[0]? = [(9 : ℚ), 9][0]? :=
  have h := c10_result_frame c10solver lp2 ⟨0, 0⟩ [7] [9, 9] 2 c10out (by rfl)
  ⟨h.1, h.2.2.1, h.2.2.1 (by decide) ▸ rfl⟩

/-- C1 (amended): when minimize succeeds with a clean final return (code 0)
and solver status OPTIMAL, it returns feasible (rv = 0) and result[r] is the
primal value of 1-based column r + 1 — i.e. the leading columns, which are
the init-variable columns first, not the output-variable columns — for
every r < min(resLen, numColumns), provided the buffer holds at least
resLen entries. -/
theorem c1_optimal_point (solver : LpData → SolverOutcome) (s : LpData)
    (g : GlobalLpData) (direction result : List ℚ) (resLen : Nat)
    (out : MinimizeOut)
    (hok : LpData.minimize solver s g direction result resLen = .ok out)
    (hres : out.simplexRes = 0) (hopt : out.state.solStatus = GLP_OPT)
    (hbuf : resLen ≤ result.length) :
    out.rv = 0 ∧
    ∀ r, r < min resLen out.state.cols.length →
      out.result[r]? = some (out.state.solPrim.getD r 0) := by
  obtain ⟨-, -, -, hstate, hsres, -, -, hproc⟩ := minimize_ok_inv hok
  rcases processSimplexResult_ok_inv hproc with
    ⟨hen, hr, hrv⟩ | ⟨hz, hopt2, hr, hrv⟩ | ⟨hz, hnof, hnopt, hr, hrv⟩
  · rw [hsres, hen] at hres
    exact absurd hres (by decide)
  · refine ⟨hrv, ?_⟩
    intro r hrlt
    rw [hstate] at hrlt
    have hrres : r < result.length := by omega
    rw [hr, getElem?_writeLoop_lt _ _ _ _ hrlt,
      List.getElem?_eq_getElem hrres]
    rw [hstate]
    rfl
  · rw [hstate] at hopt
    exact absurd hopt hnopt

/-- A concrete optimal solver for C1: primal value 5 for column 1 (the init
variable) and 7 for column 2 (the output variable). -/
def c1solver : LpData → SolverOutcome :=
  fun _ =>
    ⟨0, GLP_OPT, (fun c => if c = 1 then 5 else 7), 0, (fun _ => GLP_BS),
      (fun _ => GLP_NF)⟩

/-- The concrete minimize output used by the C1 counterexample and witness. -/
def c1out : MinimizeOut :=
  match LpData.minimize c1solver lp2 ⟨0, 0⟩ [1] [0] 1 with
  | .ok o => o
  | .error _ => ⟨lp2, ⟨0, 0⟩, [], 0, 0, []⟩

/-- Counterexample to C1 as stated: on the installed 1+1-variable instance
(numInitVars = 1, numOutputVars = 1) with an OPTIMAL solve whose primal
values are 5 for the init-variable column and 7 for the output-variable
column, minimize with a result buffer of length numOutputVars = 1 returns
rv = 0 but result[0] = 5, the primal of column 1 (the init variable), while
the primal value of output variable 0 (column numInitVars + 1) is 7 — so
result[r] is NOT the primal value of output variable r. -/
theorem c1_counterexample :
    LpData.minimize c1solver lp2 ⟨0, 0⟩ [1] [0] 1 = .ok c1out ∧
    c1out.simplexRes = 0 ∧ c1out.state.solStatus = GLP_OPT ∧
    c1out.rv = 0 ∧
    c1out.state.numInitVars = 1 ∧ c1out.state.numOutputVars = 1 ∧
    c1out.result = [5] ∧
    c1out.state.solPrim.getD (c1out.state.numInitVars + 0) 0 = 7 ∧
    ([(5 : ℚ)].getD 0 0 ≠ (7 : ℚ)) := by
  decide

/-- Witness for the amended C1 at concrete inputs: the same optimal run has
rv = 0 and result[0] equal to the primal of column 1. -/
theorem c1_optimal_point_witness :
    c1out.rv = 0 ∧
    c1out.result[0]? = some (c1out.state.solPrim.getD 0 0) :=
  have h := c1_optimal_point c1solver lp2 ⟨0, 0⟩ [1] [0] 1 c1out (by rfl)
    (by decide) (by decide) (by decide)
  ⟨h.1, h.2 0 (by decide)⟩
